import Mathlib

/-!
Shallow embedding of the mamegrep application core (`src/app.rs`): the widget
stack, the dispatch loop, the shared application state, and the main-view /
pattern-input widgets.  The `canvas`, `git` and `terminal` modules of the
repository are not present under `src/`; the definitions that stand for them
are modelled from the specification (each such definition carries a doc
comment saying so).  The external search process is modelled as an oracle
`GrepOptions → Except String SearchResult` and the terminal as a fixed size
plus a trace of drawn frames, so every function here is executable.
-/

namespace Mamegrep

/-- Modelled from the spec: the `canvas` module is not under `src/`.
Visual attribute of a token (`Plain | Underlined | Reverse`). -/
inductive TokenStyle where
  | plain
  | underlined
  | reverse
deriving DecidableEq, Repr

/-- Modelled from the spec: zero-based grid cell, absolute within the frame. -/
structure TokenPosition where
  row : Nat
  col : Nat
deriving DecidableEq, Repr

/-- Modelled from the spec: the terminal size, `{rows, cols}`. -/
structure Size where
  rows : Nat
  cols : Nat
deriving DecidableEq, Repr

/-- Modelled from the spec: the render pass is skipped when the target area
has zero rows or zero columns (`terminal.size().is_empty()`). -/
def Size.is_empty (s : Size) : Bool :=
  s.rows == 0 || s.cols == 0

/-- Modelled from the spec: an immutable styled text unit; position is
supplied at the moment it is drawn.  `text` is a character sequence and all
column arithmetic is in characters. -/
structure Token where
  text : String
  style : TokenStyle
deriving DecidableEq, Repr

/-- `Token::new` builds a plain-styled token. -/
def Token.new (text : String) : Token :=
  { text := text, style := TokenStyle.plain }

/-- `Token::with_style` builds a token with an explicit style. -/
def Token.with_style (text : String) (style : TokenStyle) : Token :=
  { text := text, style := style }

/-- One recorded draw operation: either a sequential write (performed at the
cursor position current when it was issued) or an absolute-position write. -/
inductive Op where
  | draw (pos : TokenPosition) (t : Token)
  | draw_at (pos : TokenPosition) (t : Token)
deriving DecidableEq, Repr

/-- Modelled from the spec: the Canvas accumulates draw requests during one
render pass and maintains an internal cursor; `origin_row` is the vertical
scroll offset.  The operations are kept as an ordered trace so draw order
(base text before overlays) is observable. -/
structure Canvas where
  origin_row : Nat
  size : Size
  cursor : TokenPosition
  ops : List Op
deriving DecidableEq, Repr

/-- `Canvas::new(frame_row_start, size)` with the cursor at the origin. -/
def Canvas.new (origin_row : Nat) (size : Size) : Canvas :=
  { origin_row := origin_row, size := size, cursor := ⟨0, 0⟩, ops := [] }

/-- Modelled from the spec: `draw` writes the token's text at the current
cursor and advances the cursor column by the character count; it never wraps. -/
def Canvas.draw (c : Canvas) (t : Token) : Canvas :=
  { c with
    ops := c.ops ++ [Op.draw c.cursor t]
    cursor := { c.cursor with col := c.cursor.col + t.text.length } }

/-- Modelled from the spec: `newline` moves the cursor to column 0 of the
next row. -/
def Canvas.newline (c : Canvas) : Canvas :=
  { c with cursor := { row := c.cursor.row + 1, col := 0 } }

/-- Modelled from the spec: `drawln` is `draw` followed by `newline`. -/
def Canvas.drawln (c : Canvas) (t : Token) : Canvas :=
  (c.draw t).newline

/-- Modelled from the spec: `draw_at` writes at the given absolute position
without moving the stored cursor. -/
def Canvas.draw_at (c : Canvas) (pos : TokenPosition) (t : Token) : Canvas :=
  { c with ops := c.ops ++ [Op.draw_at pos t] }

/-- Modelled from the spec: `frame_size` returns the target area. -/
def Canvas.frame_size (c : Canvas) : Size :=
  c.size

/-- Modelled from the spec: the finished frame, the sealed result of a
canvas. -/
structure Frame where
  origin_row : Nat
  size : Size
  ops : List Op
deriving DecidableEq, Repr

/-- Modelled from the spec: `into_frame` seals the canvas into a frame. -/
def Canvas.into_frame (c : Canvas) : Frame :=
  { origin_row := c.origin_row, size := c.size, ops := c.ops }

/-- Modelled from the spec: the `git` module is not under `src/`.  The search
collaborator's configuration record: `pattern`, `ignore_case`,
`before_context`, `after_context` (`GrepOptions`, with `Default` giving an
empty pattern, case-sensitive search and both context counts 0). -/
structure GrepOptions where
  pattern : String := ""
  ignore_case : Bool := false
  before_context : Nat := 0
  after_context : Nat := 0
deriving DecidableEq, Repr

instance : Inhabited GrepOptions := ⟨{}⟩

/-- Modelled from the spec: the `git` module is not under `src/`; §6 only
requires "a method producing a human-readable command-line string for
display" over the recognized options. -/
def GrepOptions.command_string (o : GrepOptions) : String :=
  "git grep -nI"
    ++ (if o.ignore_case then " -i" else "")
    ++ (if o.before_context ≠ 0 then " -B" ++ toString o.before_context else "")
    ++ (if o.after_context ≠ 0 then " -A" ++ toString o.after_context else "")
    ++ " " ++ o.pattern

/-- Modelled from the spec: one matched line of the search result — its
1-based line number and its text. -/
structure MatchLine where
  number : Nat
  text : String
deriving DecidableEq, Repr

/-- Modelled from the spec: a highlighted span inside a matched line,
`{column_offset, text_chars}`, both in character units. -/
structure MatchedColumn where
  column_offset : Nat
  text_chars : Nat
deriving DecidableEq, Repr

/-- Modelled from the spec: the highlight part of a search result — an
ordered mapping of path → (ordered mapping of line number → spans). -/
structure Highlight where
  lines : List (String × List (Nat × List MatchedColumn)) := []
deriving DecidableEq, Repr

/-- Modelled from the spec: the search result record
`{files, highlight, max_line_width}`; paths are modelled as strings and the
ordered mappings as association lists. -/
structure SearchResult where
  files : List (String × List MatchLine) := []
  highlight : Highlight := {}
  max_line_width : Nat := 0
deriving DecidableEq, Repr

instance : Inhabited SearchResult := ⟨{}⟩

/-- Rust `char::is_control`: the Unicode `Cc` category,
`U+0000..U+001F` and `U+007F..U+009F`. -/
def charIsControl (c : Char) : Bool :=
  c.toNat < 0x20 || (0x7f ≤ c.toNat && c.toNat ≤ 0x9f)

/-- The key codes distinguished by `app.rs`; every other `crossterm`
`KeyCode` variant behaves like `other` (all fall to the `_` match arms). -/
inductive KeyCode where
  | char (c : Char)
  | esc
  | enter
  | backspace
  | other
deriving DecidableEq, Repr

/-- `crossterm` key event kinds. -/
inductive KeyEventKind where
  | press
  | release
  | repeated
deriving DecidableEq, Repr

/-- A key event: code, whether the CONTROL modifier is held (the only
modifier `app.rs` inspects), and the kind. -/
structure KeyEvent where
  code : KeyCode
  ctrl : Bool
  kind : KeyEventKind
deriving DecidableEq, Repr

/-- The global quit keys checked before widget dispatch
(`KeyCode::Char('q') | KeyCode::Esc`, and `KeyCode::Char('c') if ctrl`). -/
def KeyEvent.is_quit (e : KeyEvent) : Bool :=
  match e.code with
  | KeyCode.char c => c == 'q' || (c == 'c' && e.ctrl)
  | KeyCode.esc => true
  | _ => false

/-- `crossterm::event::Event`, with the payloads `app.rs` ignores dropped. -/
inductive Event where
  | focus_gained
  | focus_lost
  | key (e : KeyEvent)
  | mouse
  | paste
  | resize (cols rows : Nat)
deriving DecidableEq, Repr

/-- `Tree` (`app.rs`): the main view's result tree; it has no fields in this
revision. -/
structure Tree where
deriving DecidableEq, Repr

instance : Inhabited Tree := ⟨{}⟩

/-- `Cursor` (`app.rs`): the main view's navigation cursor; tracked but not
yet affecting rendering. -/
structure Cursor where
  file : Option String := none
  line_number : Option Nat := none
deriving DecidableEq, Repr

instance : Inhabited Cursor := ⟨{}⟩

/-- The widget variants of `app.rs`: `MainWidget { tree, cursor }` and
`SearchPatternInputWidget {}`. -/
inductive Widget where
  | main (tree : Tree) (cursor : Cursor)
  | search_pattern_input
deriving DecidableEq, Repr

/-- `AppState` (`app.rs`): grep options, the pending widget to push, the
dirty flag and the last search result.  `grep_count` is ghost
instrumentation counting invocations of the external search collaborator
(`self.grep.call()`); it shadows no source field and no control flow reads
it. -/
structure AppState where
  grep : GrepOptions := {}
  new_widget : Option Widget := none
  dirty : Bool := false
  search_result : SearchResult := {}
  grep_count : Nat := 0
deriving DecidableEq, Repr

instance : Inhabited AppState := ⟨{}⟩

/-- The environment the app runs against: the external search process
(`GrepOptions::call`, an oracle that may fail) and the terminal size. -/
structure Env where
  grep : GrepOptions → Except String SearchResult
  size : Size

/-- `AppState::regrep`: run the external search; on success store the result
and mark dirty, on failure propagate the error leaving the stored result
untouched.  The ghost call counter is bumped in both cases. -/
def AppState.regrep (env : Env) (s : AppState) : Except String Unit × AppState :=
  match env.grep s.grep with
  | Except.ok r =>
    (Except.ok (), { s with search_result := r, dirty := true, grep_count := s.grep_count + 1 })
  | Except.error er =>
    (Except.error er, { s with grep_count := s.grep_count + 1 })

/-- `MainWidget::handle_key_event`: `/` requests the pattern-input widget;
`a`/`b` toggle after/before context between 0 and 3 and re-search; `i`
toggles case-insensitivity and re-searches; everything else is ignored.  The
handler always answers `true` (remain active) unless a re-search fails. -/
def mainHandleKeyEvent (env : Env) (s : AppState) (e : KeyEvent) :
    Except String Bool × AppState :=
  match e.code with
  | KeyCode.char c =>
    if c = '/' then
      (Except.ok true, { s with new_widget := some Widget.search_pattern_input })
    else if c = 'a' then
      let s := { s with grep :=
        { s.grep with after_context := if s.grep.after_context = 0 then 3 else 0 } }
      let rs := AppState.regrep env s
      match rs.1 with
      | Except.ok _ => (Except.ok true, rs.2)
      | Except.error er => (Except.error er, rs.2)
    else if c = 'b' then
      let s := { s with grep :=
        { s.grep with before_context := if s.grep.before_context = 0 then 3 else 0 } }
      let rs := AppState.regrep env s
      match rs.1 with
      | Except.ok _ => (Except.ok true, rs.2)
      | Except.error er => (Except.error er, rs.2)
    else if c = 'i' then
      let s := { s with grep := { s.grep with ignore_case := !s.grep.ignore_case } }
      let rs := AppState.regrep env s
      match rs.1 with
      | Except.ok _ => (Except.ok true, rs.2)
      | Except.error er => (Except.error er, rs.2)
    else
      (Except.ok true, s)
  | _ => (Except.ok true, s)

/-- `SearchPatternInputWidget::handle_key_event`: enter re-searches and
signals completion (`false`); a printable non-control character is appended
to the pattern; backspace removes the last pattern character; each mutation
marks the state dirty. -/
def inputHandleKeyEvent (env : Env) (s : AppState) (e : KeyEvent) :
    Except String Bool × AppState :=
  match e.code with
  | KeyCode.enter =>
    match env.grep s.grep with
    | Except.ok r =>
      (Except.ok false,
        { s with search_result := r, dirty := true, grep_count := s.grep_count + 1 })
    | Except.error er => (Except.error er, { s with grep_count := s.grep_count + 1 })
  | KeyCode.char c =>
    if charIsControl c then
      (Except.ok true, s)
    else
      (Except.ok true,
        { s with grep := { s.grep with pattern := s.grep.pattern.push c }, dirty := true })
  | KeyCode.backspace =>
    (Except.ok true,
      { s with grep := { s.grep with pattern := s.grep.pattern.dropRight 1 }, dirty := true })
  | _ => (Except.ok true, s)

/-- Key dispatch to a widget (the `Widget` trait's `handle_key_event`).
Neither concrete widget mutates its private state in its handler, so the
widget value is returned unchanged by construction. -/
def Widget.handle_key_event (w : Widget) (env : Env) (s : AppState) (e : KeyEvent) :
    Except String Bool × AppState :=
  match w with
  | Widget.main _ _ => mainHandleKeyEvent env s e
  | Widget.search_pattern_input => inputHandleKeyEvent env s e

/-- Right-justification padding used by the `"  [{:>width$}]"` format: pad
with spaces on the left up to `w` characters. -/
def pad_left (s : String) (w : Nat) : String :=
  String.mk (List.replicate (w - s.length) ' ') ++ s

/-- The line-number prefix token `"  [{:>width$}]"` drawn before each
matched line. -/
def line_number_token (number width : Nat) : Token :=
  Token.new ("  [" ++ pad_left (toString number) width ++ "]")

/-- The highlighted spans recorded for `line` of `file`
(`result.highlight.lines.get(file).and_then(|v| v.get(&line.number))`,
defaulting to the empty slice). -/
def matched_columns_of (result : SearchResult) (file : String) (number : Nat) :
    List MatchedColumn :=
  ((result.highlight.lines.lookup file).bind fun v => v.lookup number).getD []

/-- The reverse-styled overlay token for one matched span: the sub-range of
`text` starting at the span's character offset with the span's character
count. -/
def overlay_token (text : String) (m : MatchedColumn) : Token :=
  Token.with_style (((text.toList.drop m.column_offset).take m.text_chars).asString)
    TokenStyle.reverse

/-- The body of the `for line in lines` loop of `Tree::render_lines`: draw
the line-number prefix, remember the cursor as `base`, draw the full line
text, then overlay every matched span with an absolute write at
`(base.row, base.col + offset)`, and finish with a newline. -/
def Tree.render_line (result : SearchResult) (file : String) (c : Canvas)
    (line : MatchLine) : Canvas :=
  let matched := matched_columns_of result file line.number
  let c := c.draw (line_number_token line.number result.max_line_width)
  let base := c.cursor
  let c := c.draw (Token.new line.text)
  let c := matched.foldl
    (fun c m =>
      c.draw_at ⟨base.row, base.col + m.column_offset⟩ (overlay_token line.text m))
    c
  c.newline

/-- `Tree::render_lines`: the per-line loop over the matched lines of one
file. -/
def Tree.render_lines (c : Canvas) (_cursor : Cursor) (result : SearchResult)
    (file : String) (lines : List MatchLine) : Canvas :=
  lines.foldl (Tree.render_line result file) c

/-- `Tree::render`: for each file draw the underlined path, the
`" (N lines, M hits)"` summary, then the file's matched lines. -/
def Tree.render (c : Canvas) (cursor : Cursor) (result : SearchResult) : Canvas :=
  result.files.foldl
    (fun c fl =>
      let hits := ((result.highlight.lines.lookup fl.1).map
        fun v => (v.map fun p => p.2.length).sum).getD 0
      let c := c.draw (Token.with_style fl.1 TokenStyle.underlined)
      let c := c.drawln (Token.new
        (" (" ++ toString fl.2.length ++ " lines, " ++ toString hits ++ " hits)"))
      Tree.render_lines c cursor result fl.1 fl.2)
    c

/-- The `Widget` trait's `render`: the main view draws the command string, a
full-width rule and the result tree; the pattern-input widget draws its
prompt label. -/
def Widget.render (w : Widget) (s : AppState) (c : Canvas) : Canvas :=
  match w with
  | Widget.main _ cursor =>
    let c := c.drawln (Token.new s.grep.command_string)
    let c := c.drawln (Token.new (String.mk (List.replicate c.frame_size.cols '-')))
    Tree.render c cursor s.search_result
  | Widget.search_pattern_input => c.drawln (Token.new "Grep: ")

/-- The `Widget` trait's `render_legend`: both concrete widgets draw
nothing. -/
def Widget.render_legend (w : Widget) (c : Canvas) : Canvas :=
  match w with
  | Widget.main _ _ => c
  | Widget.search_pattern_input => c

/-- `App` (`app.rs`): exit flag, scroll start, shared state and the widget
stack (index 0 is the bottom, `getLast?` the top, matching `Vec`
push/pop/last).  `frames` is the ghost trace of frames handed to
`terminal.draw_frame`, standing for the terminal collaborator's output. -/
structure App where
  exit : Bool
  frame_row_start : Nat
  state : AppState
  widgets : List Widget
  frames : List Frame
deriving DecidableEq, Repr

/-- `App::new` modulo terminal acquisition: exit false, scroll start 0,
default state, and the stack holding exactly one `MainWidget` with default
tree and cursor. -/
def App.initial : App :=
  { exit := false
    frame_row_start := 0
    state := {}
    widgets := [Widget.main {} {}]
    frames := [] }

/-- The legend step of `App::render`: `self.widgets.last()` renders its
legend onto the shared canvas (a no-op when the stack is empty). -/
def legend_step (top : Option Widget) (c : Canvas) : Canvas :=
  match top with
  | some w => w.render_legend c
  | none => c

/-- `App::render`: skipped entirely when the terminal area is empty;
otherwise every widget renders bottom-to-top onto one canvas, the top widget
renders its legend, the canvas is sealed into a frame handed to the
terminal, and the dirty flag is cleared. -/
def App.render (env : Env) (a : App) : App :=
  if Size.is_empty env.size then a
  else
    let c := Canvas.new a.frame_row_start env.size
    let c := a.widgets.foldl (fun c w => w.render a.state c) c
    let c := legend_step a.widgets.getLast? c
    { a with
      frames := a.frames ++ [c.into_frame]
      state := { a.state with dirty := false } }

/-- The `match event.code` block of `App::handle_key_event` (the part before
the dirty/render check): quit keys set the exit flag and bypass the stack;
otherwise the top widget handles the key, is popped when it answers `false`
(marking dirty), and a pending new widget is then taken and pushed (marking
dirty).  A handler error is propagated with the state as mutated so far. -/
def App.dispatch_key (env : Env) (a : App) (e : KeyEvent) : Except String Unit × App :=
  if e.is_quit then
    (Except.ok (), { a with exit := true })
  else
    match a.widgets.getLast? with
    | none => (Except.ok (), a)
    | some w =>
      match w.handle_key_event env a.state e with
      | (Except.error er, s1) => (Except.error er, { a with state := s1 })
      | (Except.ok keep, s1) =>
        let step :=
          if keep then (a.widgets, s1)
          else (a.widgets.dropLast, { s1 with dirty := true })
        match step.2.new_widget with
        | some nw =>
          (Except.ok (),
            { a with
              widgets := step.1 ++ [nw]
              state := { step.2 with new_widget := none, dirty := true } })
        | none => (Except.ok (), { a with widgets := step.1, state := step.2 })

/-- `App::handle_key_event`: non-press events return immediately; a press is
dispatched and, when the state ends up dirty, a render pass runs. -/
def App.handle_key_event (env : Env) (a : App) (e : KeyEvent) :
    Except String Unit × App :=
  if e.kind = KeyEventKind.press then
    match a.dispatch_key env e with
    | (Except.error er, a1) => (Except.error er, a1)
    | (Except.ok _, a1) =>
      (Except.ok (), if a1.state.dirty then a1.render env else a1)
  else
    (Except.ok (), a)

/-- `App::handle_event`: focus/mouse/paste events are no-ops, key events are
dispatched, a resize triggers an unconditional render. -/
def App.handle_event (env : Env) (a : App) (ev : Event) : Except String Unit × App :=
  match ev with
  | Event.focus_gained => (Except.ok (), a)
  | Event.focus_lost => (Except.ok (), a)
  | Event.key e => a.handle_key_event env e
  | Event.mouse => (Except.ok (), a)
  | Event.paste => (Except.ok (), a)
  | Event.resize _ _ => (Except.ok (), a.render env)

/-- The `while !self.exit` loop of `App::run`, fed by the finite list of
events the terminal will deliver; exhausting the list while the app still
runs is the input-read failure (fatal per the error policy). -/
def App.run_loop (env : Env) (a : App) : List Event → Except String App
  | [] => if a.exit then Except.ok a else Except.error "terminal.next_event"
  | ev :: evs =>
    if a.exit then Except.ok a
    else
      match a.handle_event env ev with
      | (Except.error er, _) => Except.error er
      | (Except.ok _, a1) => a1.run_loop env evs

/-- One observable top-level effect of `App::run`: a frame drawn to the
terminal, the terminal being released (dropping raw mode), or a line printed
to standard output. -/
inductive TraceEv where
  | draw_frame (f : Frame)
  | release_terminal
  | stdout_line (s : String)
deriving DecidableEq, Repr

/-- `App::run`: an initial unconditional render, the event loop, then — only
on normal exit — dropping the terminal followed by printing the final search
command string.  The result is the chronological trace of observable
effects. -/
def App.run (env : Env) (a : App) (evs : List Event) : Except String (List TraceEv) :=
  match (a.render env).run_loop env evs with
  | Except.error er => Except.error er
  | Except.ok af =>
    Except.ok (af.frames.map TraceEv.draw_frame
      ++ [TraceEv.release_terminal, TraceEv.stdout_line af.state.grep.command_string])

/-- The widget-stack invariant: the bottom of the stack is a `MainWidget`
(so in particular the stack is non-empty). -/
def stack_inv (a : App) : Prop :=
  ∃ t cu ws, a.widgets = Widget.main t cu :: ws

/-- A concrete environment whose search always succeeds with the empty
result, on a 10×20 terminal. -/
def envOk : Env :=
  ⟨fun _ => Except.ok {}, ⟨10, 20⟩⟩

/-- A concrete environment with a zero-row terminal area. -/
def envEmpty : Env :=
  ⟨fun _ => Except.ok {}, ⟨0, 5⟩⟩

/-- A concrete environment whose search always fails. -/
def envErr : Env :=
  ⟨fun _ => Except.error "grep failed", ⟨10, 20⟩⟩

/-- Key-press events used in concrete scenarios. -/
def evQ : KeyEvent := ⟨KeyCode.char 'q', false, KeyEventKind.press⟩

def evI : KeyEvent := ⟨KeyCode.char 'i', false, KeyEventKind.press⟩

def evA : KeyEvent := ⟨KeyCode.char 'a', false, KeyEventKind.press⟩

def evB : KeyEvent := ⟨KeyCode.char 'b', false, KeyEventKind.press⟩

def evSlash : KeyEvent := ⟨KeyCode.char '/', false, KeyEventKind.press⟩

def evEnter : KeyEvent := ⟨KeyCode.enter, false, KeyEventKind.press⟩

def evBackspace : KeyEvent := ⟨KeyCode.backspace, false, KeyEventKind.press⟩

def evF : KeyEvent := ⟨KeyCode.char 'f', false, KeyEventKind.press⟩

/-- A key release, for the non-press frame claims. -/
def evRelease : KeyEvent := ⟨KeyCode.char 'x', false, KeyEventKind.release⟩

/-- An app whose stack has the pattern-input widget on top of the main view
(the state the program is in right after `/` was handled). -/
def appInput : App :=
  { App.initial with widgets := [Widget.main {} {}, Widget.search_pattern_input] }

/-- An app whose stack has the pattern-input widget on top of the main view
and whose state already carries a pending widget, exercising the
pop-then-push handoff. -/
def appPend : App :=
  { App.initial with
    widgets := [Widget.main {} {}, Widget.search_pattern_input]
    state := { new_widget := some Widget.search_pattern_input } }

lemma render_preserves (env : Env) (a : App) :
    (a.render env).widgets = a.widgets ∧ (a.render env).exit = a.exit ∧
    (a.render env).state.grep = a.state.grep ∧
    (a.render env).state.search_result = a.state.search_result ∧
    (a.render env).state.new_widget = a.state.new_widget ∧
    (a.render env).state.grep_count = a.state.grep_count := by
  unfold App.render
  split <;> simp

lemma regrep_fst_error (env : Env) (s : AppState) (er : String)
    (h : (AppState.regrep env s).1 = Except.error er) :
    env.grep s.grep = Except.error er ∧
      (AppState.regrep env s).2 = { s with grep_count := s.grep_count + 1 } := by
  unfold AppState.regrep at h ⊢
  split at h <;> simp_all

lemma regrep_fst_ok (env : Env) (s : AppState) (u : Unit)
    (h : (AppState.regrep env s).1 = Except.ok u) :
    ∃ r, env.grep s.grep = Except.ok r ∧
      (AppState.regrep env s).2 =
        { s with search_result := r, dirty := true, grep_count := s.grep_count + 1 } := by
  unfold AppState.regrep at h ⊢
  split at h <;> simp_all

lemma main_not_ok_false (env : Env) (s : AppState) (e : KeyEvent) :
    (mainHandleKeyEvent env s e).1 ≠ Except.ok false := by
  intro h
  unfold mainHandleKeyEvent at h
  dsimp only [] at h
  repeat' (first | (split_ifs at h) | (split at h))
  all_goals simp at h

lemma handle_key_error_result (w : Widget) (env : Env) (s : AppState) (e : KeyEvent)
    (er : String) (s1 : AppState)
    (h : w.handle_key_event env s e = (Except.error er, s1)) :
    s1.search_result = s.search_result := by
  cases w <;> simp only [Widget.handle_key_event] at h
  · unfold mainHandleKeyEvent at h
    dsimp only [] at h
    repeat' (first | (split_ifs at h) | (split at h))
    all_goals simp only [Prod.mk.injEq] at h
    all_goals obtain ⟨h1, h2⟩ := h
    all_goals first
      | (exact Except.noConfusion h1)
      | (subst h2
         rename_i heq
         rw [(regrep_fst_error _ _ _ heq).2])
  · unfold inputHandleKeyEvent at h
    dsimp only [] at h
    repeat' (first | (split_ifs at h) | (split at h))
    all_goals simp only [Prod.mk.injEq] at h
    all_goals obtain ⟨h1, h2⟩ := h
    all_goals first
      | (exact Except.noConfusion h1)
      | (subst h2; rfl)

lemma handle_key_mutation_dirty (w : Widget) (env : Env) (s : AppState) (e : KeyEvent)
    (b : Bool) (s1 : AppState)
    (h : w.handle_key_event env s e = (Except.ok b, s1))
    (hm : s1.grep ≠ s.grep ∨ s1.search_result ≠ s.search_result) :
    s1.dirty = true := by
  cases w <;> simp only [Widget.handle_key_event] at h
  · unfold mainHandleKeyEvent at h
    dsimp only [] at h
    repeat' (first | (split_ifs at h) | (split at h))
    all_goals simp only [Prod.mk.injEq] at h
    all_goals obtain ⟨h1, h2⟩ := h
    all_goals first
      | (exact Except.noConfusion h1)
      | (subst h2
         rename_i heq
         obtain ⟨r, hr, h2⟩ := regrep_fst_ok _ _ _ heq
         rw [h2])
      | (subst h2
         rcases hm with hm | hm <;> exact absurd rfl hm)
  · unfold inputHandleKeyEvent at h
    dsimp only [] at h
    repeat' (first | (split_ifs at h) | (split at h))
    all_goals simp only [Prod.mk.injEq] at h
    all_goals obtain ⟨h1, h2⟩ := h
    all_goals first
      | (exact Except.noConfusion h1)
      | (subst h2; rfl)
      | (subst h2
         rcases hm with hm | hm <;> exact absurd rfl hm)

lemma foldl_overlay_ops (ms : List MatchedColumn) (c : Canvas) (base : TokenPosition)
    (text : String) :
    (ms.foldl
      (fun c m => c.draw_at ⟨base.row, base.col + m.column_offset⟩ (overlay_token text m))
      c).ops
      = c.ops ++ ms.map
          (fun m => Op.draw_at ⟨base.row, base.col + m.column_offset⟩ (overlay_token text m)) := by
  induction ms generalizing c with
  | nil => simp
  | cons m ms ih =>
    rw [List.foldl_cons, ih]
    simp [Canvas.draw_at]

/-- C10: a key event whose kind is not a press leaves the whole application
state unchanged — widget stack, options, pattern, result, dirty and exit
flags — and triggers neither a render pass nor any widget dispatch. -/
theorem c10_non_press_noop (env : Env) (a : App) (e : KeyEvent)
    (h : e.kind ≠ KeyEventKind.press) :
    a.handle_key_event env e = (Except.ok (), a) := by
  unfold App.handle_key_event
  simp [h]

theorem c10_non_press_noop_witness :
    App.initial.handle_key_event envOk evRelease = (Except.ok (), App.initial) :=
  c10_non_press_noop envOk App.initial evRelease (by decide)

/-- C9: for every matched line, `Tree::render_lines` first draws the line
prefix sequentially at the cursor, then the full line text, and only then
draws every highlighted span with an absolute write at the base cursor row
and base column plus the span's character offset, in reverse style, with the
corresponding character sub-range of the line — every overlay write comes
after the base text write in the operation trace. -/
theorem c9_overlay_after_base (r : SearchResult) (file : String) (c : Canvas)
    (line : MatchLine) :
    (Tree.render_line r file c line).ops
      = c.ops
        ++ [Op.draw c.cursor (line_number_token line.number r.max_line_width),
            Op.draw ⟨c.cursor.row,
                c.cursor.col + (line_number_token line.number r.max_line_width).text.length⟩
              (Token.new line.text)]
        ++ (matched_columns_of r file line.number).map
            (fun m => Op.draw_at
              ⟨c.cursor.row,
               c.cursor.col + (line_number_token line.number r.max_line_width).text.length
                 + m.column_offset⟩
              (overlay_token line.text m)) := by
  unfold Tree.render_line
  dsimp only []
  rw [show ∀ x : Canvas, x.newline.ops = x.ops from fun x => rfl]
  rw [foldl_overlay_ops (matched_columns_of r file line.number)
        ((c.draw (line_number_token line.number r.max_line_width)).draw (Token.new line.text))
        ((c.draw (line_number_token line.number r.max_line_width)).cursor) line.text]
  simp [Canvas.draw]

/-- C5: a render pass over an empty terminal area performs nothing and
returns without error; otherwise it renders every stacked widget
bottom-to-top on one shared canvas, then the top widget's legend on the same
canvas, seals the canvas into a frame handed to the terminal, and clears the
dirty flag. -/
theorem c5_render_pass (env : Env) (a : App) :
    (Size.is_empty env.size = true → a.render env = a) ∧
    (Size.is_empty env.size = false →
      a.render env =
        { a with
          frames := a.frames ++
            [(legend_step a.widgets.getLast?
                (a.widgets.foldl (fun c w => w.render a.state c)
                  (Canvas.new a.frame_row_start env.size))).into_frame]
          state := { a.state with dirty := false } }) := by
  constructor <;> intro h <;> simp [App.render, h]

theorem c5_render_pass_witness :
    App.initial.render envEmpty = App.initial ∧
    App.initial.render envOk =
      { App.initial with
        frames := App.initial.frames ++
          [(legend_step App.initial.widgets.getLast?
              (App.initial.widgets.foldl (fun c w => w.render App.initial.state c)
                (Canvas.new App.initial.frame_row_start envOk.size))).into_frame]
        state := { App.initial.state with dirty := false } } :=
  ⟨(c5_render_pass envEmpty App.initial).1 rfl, (c5_render_pass envOk App.initial).2 rfl⟩

/-- C2: when the top widget's handler signals completion and a pending new
widget is set, dispatch removes the old top widget and pushes the new one:
the result stack is the old stack with its top replaced, so the pop is
applied before the push, the old widget is not left in place, and old and
new are never both present. -/
theorem c2_pop_then_push (env : Env) (a : App) (e : KeyEvent) (w : Widget)
    (ws : List Widget) (s1 : AppState) (nw : Widget)
    (hw : a.widgets = ws ++ [w])
    (hq : e.is_quit = false)
    (hh : w.handle_key_event env a.state e = (Except.ok false, s1))
    (hn : s1.new_widget = some nw) :
    a.dispatch_key env e =
      (Except.ok (),
        { a with
          widgets := ws ++ [nw]
          state := { s1 with new_widget := none, dirty := true } }) := by
  unfold App.dispatch_key
  rw [hw, List.getLast?_concat]
  simp only [hq, Bool.false_eq_true, if_false, hh, List.dropLast_concat]
  rw [hn]

theorem c2_pop_then_push_witness :
    appPend.dispatch_key envOk evEnter =
      (Except.ok (),
        { appPend with
          widgets := [Widget.main {} {}] ++ [Widget.search_pattern_input]
          state := { ({ grep := {}, new_widget := some Widget.search_pattern_input,
                        dirty := true, search_result := {}, grep_count := 1 } : AppState) with
                     new_widget := none, dirty := true } }) :=
  c2_pop_then_push envOk appPend evEnter Widget.search_pattern_input
    [Widget.main {} {}]
    { grep := {}, new_widget := some Widget.search_pattern_input, dirty := true,
      search_result := {}, grep_count := 1 }
    Widget.search_pattern_input rfl rfl rfl rfl

lemma dispatch_error_state (env : Env) (a : App) (e : KeyEvent) (er : String) (a1 : App)
    (h : a.dispatch_key env e = (Except.error er, a1)) :
    a1.state.search_result = a.state.search_result ∧ a1.frames = a.frames := by
  unfold App.dispatch_key at h
  split at h
  · simp at h
  · split at h
    · simp at h
    · dsimp only [] at h
      split at h
      · rename_i er2 s1 heq
        simp only [Prod.mk.injEq] at h
        obtain ⟨h1, h2⟩ := h
        subst h2
        exact ⟨handle_key_error_result _ _ _ _ _ _ heq, rfl⟩
      · split_ifs at h <;> split at h <;> simp at h

/-- C8: a failing external search invocation during key handling propagates
the error out of the widget's key-handler and aborts the run, and the
previously stored search result is left unchanged — a failed search never
replaces the displayed result (`regrep` leaves every field but the ghost
call counter untouched on error, the app-level handler performs no render,
and the event loop stops with the error). -/
theorem c8_search_failure_propagates :
    (∀ (env : Env) (s : AppState) (er : String),
      env.grep s.grep = Except.error er →
      AppState.regrep env s = (Except.error er, { s with grep_count := s.grep_count + 1 })) ∧
    (∀ (w : Widget) (env : Env) (s : AppState) (e : KeyEvent) (er : String) (s1 : AppState),
      w.handle_key_event env s e = (Except.error er, s1) →
      s1.search_result = s.search_result) ∧
    (∀ (env : Env) (a : App) (e : KeyEvent) (er : String) (a1 : App),
      a.handle_key_event env e = (Except.error er, a1) →
      a1.state.search_result = a.state.search_result ∧ a1.frames = a.frames) ∧
    (∀ (env : Env) (a : App) (ev : Event) (evs : List Event) (er : String) (a1 : App),
      a.handle_event env ev = (Except.error er, a1) → a.exit = false →
      a.run_loop env (ev :: evs) = Except.error er) := by
  refine ⟨?_, ?_, ?_, ?_⟩
  · intro env s er h
    unfold AppState.regrep
    rw [h]
  · intro w env s e er s1 h
    exact handle_key_error_result _ _ _ _ _ _ h
  · intro env a e er a1 h
    unfold App.handle_key_event at h
    split at h
    · split at h
      · rename_i er2 a2 heq
        simp only [Prod.mk.injEq] at h
        obtain ⟨h1, h2⟩ := h
        subst h2
        exact dispatch_error_state _ _ _ _ _ heq
      · simp at h
    · simp at h
  · intro env a ev evs er a1 h hx
    unfold App.run_loop
    rw [hx]
    simp only [Bool.false_eq_true, if_false]
    rw [h]

theorem c8_search_failure_propagates_witness :
    AppState.regrep envErr ({} : AppState)
      = (Except.error "grep failed", { ({} : AppState) with grep_count := 1 }) ∧
    ((mainHandleKeyEvent envErr ({} : AppState) evI).2).search_result
      = ({} : AppState).search_result ∧
    ((App.initial.handle_key_event envErr evI).2.state.search_result
        = App.initial.state.search_result ∧
      (App.initial.handle_key_event envErr evI).2.frames = App.initial.frames) ∧
    App.initial.run_loop envErr [Event.key evI] = Except.error "grep failed" :=
  ⟨c8_search_failure_propagates.1 envErr {} "grep failed" rfl,
   c8_search_failure_propagates.2.1 (Widget.main {} {}) envErr {} evI "grep failed"
     ((mainHandleKeyEvent envErr ({} : AppState) evI).2) rfl,
   c8_search_failure_propagates.2.2.1 envErr App.initial evI "grep failed"
     ((App.initial.handle_key_event envErr evI).2) rfl,
   c8_search_failure_propagates.2.2.2 envErr App.initial (Event.key evI) [] "grep failed"
     ((App.initial.handle_event envErr (Event.key evI)).2) rfl rfl⟩

lemma dispatch_widgets_cases (env : Env) (a : App) (e : KeyEvent)
    (r : Except String Unit) (a1 : App)
    (h : a.dispatch_key env e = (r, a1)) :
    (a1.widgets = a.widgets ∨ ∃ nw, a1.widgets = a.widgets ++ [nw]) ∨
    ((∃ w s1, a.widgets.getLast? = some w ∧
        w.handle_key_event env a.state e = (Except.ok false, s1)) ∧
      (a1.widgets = a.widgets.dropLast ∨
        ∃ nw, a1.widgets = a.widgets.dropLast ++ [nw])) := by
  unfold App.dispatch_key at h
  split at h
  · simp only [Prod.mk.injEq] at h
    obtain ⟨h1, h2⟩ := h
    subst h2
    exact Or.inl (Or.inl rfl)
  · split at h
    · simp only [Prod.mk.injEq] at h
      obtain ⟨h1, h2⟩ := h
      subst h2
      exact Or.inl (Or.inl rfl)
    · rename_i w hlast
      dsimp only [] at h
      split at h
      · simp only [Prod.mk.injEq] at h
        obtain ⟨h1, h2⟩ := h
        subst h2
        exact Or.inl (Or.inl rfl)
      · rename_i keep s1 heq
        split_ifs at h with hkeep
        · subst hkeep
          split at h <;>
            (simp only [Prod.mk.injEq] at h
             obtain ⟨h1, h2⟩ := h
             subst h2)
          · exact Or.inl (Or.inr ⟨_, rfl⟩)
          · exact Or.inl (Or.inl rfl)
        · have hkf : keep = false := eq_false_of_ne_true hkeep
          subst hkf
          split at h <;>
            (simp only [Prod.mk.injEq] at h
             obtain ⟨h1, h2⟩ := h
             subst h2)
          · exact Or.inr ⟨⟨w, s1, hlast, heq⟩, Or.inr ⟨_, rfl⟩⟩
          · exact Or.inr ⟨⟨w, s1, hlast, heq⟩, Or.inl rfl⟩

lemma stack_inv_render (env : Env) (a : App) (h : stack_inv a) :
    stack_inv (a.render env) := by
  obtain ⟨t, cu, ws, hw⟩ := h
  exact ⟨t, cu, ws, by rw [(render_preserves env a).1, hw]⟩

lemma dispatch_preserves_inv (env : Env) (a : App) (e : KeyEvent)
    (r : Except String Unit) (a1 : App)
    (hinv : stack_inv a) (h : a.dispatch_key env e = (r, a1)) : stack_inv a1 := by
  obtain ⟨t, cu, ws, hw⟩ := hinv
  rcases dispatch_widgets_cases env a e r a1 h with (h1 | ⟨nw, h1⟩) | ⟨⟨w, s1, hlast, hh⟩, h1⟩
  · exact ⟨t, cu, ws, by rw [h1, hw]⟩
  · exact ⟨t, cu, ws ++ [nw], by rw [h1, hw, List.cons_append]⟩
  · rcases ws with _ | ⟨x, xs⟩
    · rw [hw] at hlast
      simp only [List.getLast?_singleton, Option.some.injEq] at hlast
      subst hlast
      have := main_not_ok_false env a.state e
      rw [show (Widget.main t cu).handle_key_event env a.state e
            = mainHandleKeyEvent env a.state e from rfl] at hh
      exact absurd (by rw [hh]) this
    · have hdl : a.widgets.dropLast = Widget.main t cu :: (x :: xs).dropLast := by
        rw [hw]
        exact List.dropLast_cons₂
      rcases h1 with h1 | ⟨nw, h1⟩
      · exact ⟨t, cu, (x :: xs).dropLast, by rw [h1, hdl]⟩
      · exact ⟨t, cu, (x :: xs).dropLast ++ [nw], by rw [h1, hdl, List.cons_append]⟩

lemma handle_event_preserves_inv (env : Env) (a : App) (ev : Event)
    (r : Except String Unit) (a1 : App)
    (hinv : stack_inv a) (h : a.handle_event env ev = (r, a1)) : stack_inv a1 := by
  cases ev <;> simp only [App.handle_event] at h
  case key e =>
    unfold App.handle_key_event at h
    split at h
    · split at h
      · rename_i er a2 heq
        simp only [Prod.mk.injEq] at h
        obtain ⟨h1, h2⟩ := h
        subst h2
        exact dispatch_preserves_inv env a e _ _ hinv heq
      · rename_i u a2 heq
        simp only [Prod.mk.injEq] at h
        obtain ⟨h1, h2⟩ := h
        subst h2
        have h2 := dispatch_preserves_inv env a e _ _ hinv heq
        split
        · exact stack_inv_render env a2 h2
        · exact h2
    · simp only [Prod.mk.injEq] at h
      obtain ⟨h1, h2⟩ := h
      subst h2
      exact hinv
  case resize cols rows =>
    simp only [Prod.mk.injEq] at h
    obtain ⟨h1, h2⟩ := h
    subst h2
    exact stack_inv_render env a hinv
  all_goals
    simp only [Prod.mk.injEq] at h
    obtain ⟨h1, h2⟩ := h
    subst h2
    exact hinv

/-- C1: the widget stack never becomes empty: it starts with only the main
view widget (whose handler never signals completion, so the bottom widget is
always the main view), handling any event preserves that shape, and any
successful run of the event loop ends with a non-empty stack. -/
theorem c1_stack_never_empty :
    stack_inv App.initial ∧
    (∀ (env : Env) (a : App) (ev : Event) (r : Except String Unit) (a1 : App),
      stack_inv a → a.handle_event env ev = (r, a1) → stack_inv a1) ∧
    (∀ a : App, stack_inv a → a.widgets ≠ []) ∧
    (∀ (env : Env) (a : App) (evs : List Event) (af : App),
      stack_inv a → a.run_loop env evs = Except.ok af → af.widgets ≠ []) := by
  have hne : ∀ a : App, stack_inv a → a.widgets ≠ [] := by
    intro a ⟨t, cu, ws, hw⟩
    rw [hw]
    simp
  refine ⟨⟨{}, {}, [], rfl⟩, handle_event_preserves_inv, hne, ?_⟩
  intro env a evs af hinv hrun
  induction evs generalizing a with
  | nil =>
    unfold App.run_loop at hrun
    split at hrun
    · cases hrun
      exact hne _ hinv
    · cases hrun
  | cons ev evs ih =>
    unfold App.run_loop at hrun
    split at hrun
    · cases hrun
      exact hne _ hinv
    · split at hrun
      · cases hrun
      · rename_i u a1 heq
        exact ih a1 (handle_event_preserves_inv env a ev _ _ hinv heq) hrun

theorem c1_stack_never_empty_witness :
    App.initial.widgets ≠ [] ∧ ({ App.initial with exit := true } : App).widgets ≠ [] :=
  ⟨c1_stack_never_empty.2.2.1 App.initial c1_stack_never_empty.1,
   c1_stack_never_empty.2.2.2 envOk App.initial [Event.key evQ]
     { App.initial with exit := true } c1_stack_never_empty.1 rfl⟩

/-- C4 counterexample: pressing `/` in the main view from a clean state
(dirty = false) pushes the pattern-input widget and sets the dirty flag to
true before the render check, while the search options, the pattern text
(part of the options record) and the search results are all unchanged — so
the dirty flag does not stay false until the next mutation of options,
pattern, or results. -/
theorem c4_dirty_cex :
    App.initial.state.dirty = false ∧
    (App.initial.dispatch_key envOk evSlash).1 = Except.ok () ∧
    (App.initial.dispatch_key envOk evSlash).2.state.dirty = true ∧
    (App.initial.dispatch_key envOk evSlash).2.state.grep = App.initial.state.grep ∧
    (App.initial.dispatch_key envOk evSlash).2.state.search_result
      = App.initial.state.search_result :=
  ⟨rfl, rfl, rfl, rfl, rfl⟩

lemma render_clears_dirty (env : Env) (a : App) (h : Size.is_empty env.size = false) :
    (a.render env).state.dirty = false := by
  simp [App.render, h]

/-- C4 (amended): every mutation of the search options, the pattern text, or
the search results during a successfully dispatched key event sets the dirty
flag before the dispatch loop's render check, and a render pass over a
nonempty terminal area clears the dirty flag — hence after every
successfully handled key press with a nonempty terminal the dirty flag is
false.  (The original "stays false until the next such mutation" clause
fails: widget pushes/pops and no-op pattern edits also set the flag.) -/
theorem c4_dirty_discipline :
    (∀ (env : Env) (a : App) (e : KeyEvent) (a1 : App),
      a.dispatch_key env e = (Except.ok (), a1) →
      (a1.state.grep ≠ a.state.grep ∨ a1.state.search_result ≠ a.state.search_result) →
      a1.state.dirty = true) ∧
    (∀ (env : Env) (a : App), Size.is_empty env.size = false →
      (a.render env).state.dirty = false) ∧
    (∀ (env : Env) (a : App) (e : KeyEvent) (a1 : App),
      Size.is_empty env.size = false → e.kind = KeyEventKind.press →
      a.handle_key_event env e = (Except.ok (), a1) →
      a1.state.dirty = false) := by
  refine ⟨?_, render_clears_dirty, ?_⟩
  · intro env a e a1 h hm
    unfold App.dispatch_key at h
    split at h
    · simp only [Prod.mk.injEq] at h
      obtain ⟨h1, h2⟩ := h
      subst h2
      rcases hm with hm | hm <;> exact absurd rfl hm
    · split at h
      · simp only [Prod.mk.injEq] at h
        obtain ⟨h1, h2⟩ := h
        subst h2
        rcases hm with hm | hm <;> exact absurd rfl hm
      · rename_i w hlast
        dsimp only [] at h
        split at h
        · simp at h
        · rename_i keep s1 heq
          split_ifs at h with hkeep
          · subst hkeep
            split at h <;>
              (simp only [Prod.mk.injEq] at h
               obtain ⟨h1, h2⟩ := h
               subst h2)
            · rfl
            · exact handle_key_mutation_dirty w env a.state e true s1 heq hm
          · have hkf : keep = false := eq_false_of_ne_true hkeep
            subst hkf
            split at h <;>
              (simp only [Prod.mk.injEq] at h
               obtain ⟨h1, h2⟩ := h
               subst h2)
            · rfl
            · rfl
  · intro env a e a1 hs hk h
    unfold App.handle_key_event at h
    rw [if_pos hk] at h
    split at h
    · simp at h
    · simp only [Prod.mk.injEq] at h
      obtain ⟨h1, h2⟩ := h
      subst h2
      split
      · exact render_clears_dirty env _ hs
      · rename_i hd
        exact Bool.not_eq_true _ ▸ hd

theorem c4_dirty_discipline_witness :
    (App.initial.dispatch_key envOk evI).2.state.dirty = true ∧
    (App.initial.render envOk).state.dirty = false ∧
    (App.initial.handle_key_event envOk evI).2.state.dirty = false :=
  ⟨c4_dirty_discipline.1 envOk App.initial evI
     (App.initial.dispatch_key envOk evI).2 rfl (Or.inl (by decide)),
   c4_dirty_discipline.2.1 envOk App.initial rfl,
   c4_dirty_discipline.2.2 envOk App.initial evI
     (App.initial.handle_key_event envOk evI).2 rfl rfl rfl⟩

/-- C7: a quit key (or control-modified quit key) terminates the application
regardless of the stack contents, and on a normal quit the observable trace
ends with the terminal release followed — as the very last action — by the
final search command string printed to standard output; everything before
the release is frame output. -/
theorem c7_quit_and_final_output :
    (∀ (env : Env) (a : App) (e : KeyEvent), e.is_quit = true →
      a.dispatch_key env e = (Except.ok (), { a with exit := true })) ∧
    (∀ (env : Env) (a : App) (evs : List Event) (tr : List TraceEv),
      a.run env evs = Except.ok tr →
      ∃ pre af,
        (a.render env).run_loop env evs = Except.ok af ∧
        tr = pre ++ [TraceEv.release_terminal,
          TraceEv.stdout_line af.state.grep.command_string] ∧
        ∀ x ∈ pre, ∃ f, x = TraceEv.draw_frame f) := by
  constructor
  · intro env a e h
    unfold App.dispatch_key
    rw [if_pos h]
  · intro env a evs tr h
    unfold App.run at h
    split at h
    · cases h
    · rename_i af heq
      simp only [Except.ok.injEq] at h
      refine ⟨af.frames.map TraceEv.draw_frame, af, heq, h.symm, ?_⟩
      intro x hx
      rw [List.mem_map] at hx
      obtain ⟨f, _, rfl⟩ := hx
      exact ⟨f, rfl⟩

theorem c7_quit_and_final_output_witness :
    App.dispatch_key envOk App.initial evQ = (Except.ok (), { App.initial with exit := true }) ∧
    (∃ pre af,
      (App.initial.render envEmpty).run_loop envEmpty [Event.key evQ] = Except.ok af ∧
      [TraceEv.release_terminal, TraceEv.stdout_line (GrepOptions.command_string {})]
        = pre ++ [TraceEv.release_terminal,
            TraceEv.stdout_line af.state.grep.command_string] ∧
      ∀ x ∈ pre, ∃ f, x = TraceEv.draw_frame f) :=
  ⟨c7_quit_and_final_output.1 envOk App.initial evQ rfl,
   c7_quit_and_final_output.2 envEmpty App.initial [Event.key evQ]
     [TraceEv.release_terminal, TraceEv.stdout_line (GrepOptions.command_string {})] rfl⟩

/-- C6: starting from the default state with only the main view on the
stack, pressing `i`, `a`, `b` (then quitting) leaves the options with
ignore_case = true, after_context = 3 and before_context = 3, and invokes
the external search exactly 3 times — once per key press. -/
theorem c6_scenario (env : Env) (r1 r2 r3 : SearchResult) (af : App)
    (h1 : env.grep { pattern := "", ignore_case := true, before_context := 0, after_context := 0 } = Except.ok r1)
    (h2 : env.grep { pattern := "", ignore_case := true, before_context := 0, after_context := 3 } = Except.ok r2)
    (h3 : env.grep { pattern := "", ignore_case := true, before_context := 3, after_context := 3 } = Except.ok r3)
    (hrun : App.initial.run_loop env
      [Event.key evI, Event.key evA, Event.key evB, Event.key evQ] = Except.ok af) :
    af.state.grep.ignore_case = true ∧ af.state.grep.after_context = 3 ∧
    af.state.grep.before_context = 3 ∧ af.state.grep_count = 3 := by
  cases hs : Size.is_empty env.size <;>
    (simp only [App.run_loop, App.handle_event, App.handle_key_event, App.dispatch_key,
        Widget.handle_key_event, mainHandleKeyEvent, AppState.regrep, KeyEvent.is_quit,
        App.initial, App.render, legend_step, evI, evA, evB, evQ, hs] at hrun
     simp [h1, h2, h3] at hrun)
  all_goals
    (subst hrun
     exact ⟨rfl, rfl, rfl, rfl⟩)

theorem c6_scenario_witness :
    ((App.initial.run_loop envOk
        [Event.key evI, Event.key evA, Event.key evB, Event.key evQ]).toOption.getD
      App.initial).state.grep.ignore_case = true ∧
    ((App.initial.run_loop envOk
        [Event.key evI, Event.key evA, Event.key evB, Event.key evQ]).toOption.getD
      App.initial).state.grep.after_context = 3 ∧
    ((App.initial.run_loop envOk
        [Event.key evI, Event.key evA, Event.key evB, Event.key evQ]).toOption.getD
      App.initial).state.grep.before_context = 3 ∧
    ((App.initial.run_loop envOk
        [Event.key evI, Event.key evA, Event.key evB, Event.key evQ]).toOption.getD
      App.initial).state.grep_count = 3 :=
  c6_scenario envOk {} {} {} _ rfl rfl rfl rfl

/-- C3: while the pattern-input widget handles keys, a printable non-control
character press appends that character to the search pattern and marks the
state dirty; backspace removes the last pattern character and marks dirty;
enter runs exactly one synchronous re-search, stores its result, marks
dirty, and signals completion — at dispatch level the widget is popped. -/
theorem c3_pattern_input_keys :
    (∀ (env : Env) (s : AppState) (e : KeyEvent) (c : Char),
      e.code = KeyCode.char c → charIsControl c = false →
      inputHandleKeyEvent env s e =
        (Except.ok true,
          { s with grep := { s.grep with pattern := s.grep.pattern.push c }, dirty := true })) ∧
    (∀ (env : Env) (s : AppState) (e : KeyEvent),
      e.code = KeyCode.backspace →
      inputHandleKeyEvent env s e =
        (Except.ok true,
          { s with grep := { s.grep with pattern := s.grep.pattern.dropRight 1 }, dirty := true })) ∧
    (∀ (env : Env) (s : AppState) (e : KeyEvent) (r : SearchResult),
      e.code = KeyCode.enter → env.grep s.grep = Except.ok r →
      inputHandleKeyEvent env s e =
        (Except.ok false,
          { s with search_result := r, dirty := true, grep_count := s.grep_count + 1 })) ∧
    (∀ (env : Env) (a : App) (e : KeyEvent) (r : SearchResult),
      a.widgets.getLast? = some Widget.search_pattern_input →
      a.state.new_widget = none →
      e.code = KeyCode.enter → env.grep a.state.grep = Except.ok r →
      a.dispatch_key env e =
        (Except.ok (),
          { a with
            widgets := a.widgets.dropLast
            state := { a.state with
              search_result := r
              dirty := true
              grep_count := a.state.grep_count + 1 } })) := by
  refine ⟨?_, ?_, ?_, ?_⟩
  · intro env s e c hc hctl
    unfold inputHandleKeyEvent
    rw [hc]
    simp [hctl]
  · intro env s e hc
    unfold inputHandleKeyEvent
    rw [hc]
  · intro env s e r hc hr
    unfold inputHandleKeyEvent
    rw [hc]
    dsimp only []
    rw [hr]
  · intro env a e r hlast hn hc hr
    have hq : e.is_quit = false := by
      unfold KeyEvent.is_quit
      rw [hc]
    unfold App.dispatch_key
    simp only [hq, Bool.false_eq_true, if_false]
    rw [hlast]
    dsimp only []
    rw [show Widget.search_pattern_input.handle_key_event env a.state e
          = inputHandleKeyEvent env a.state e from rfl]
    unfold inputHandleKeyEvent
    rw [hc]
    dsimp only []
    rw [hr]
    dsimp only []
    rw [hn]
    simp

theorem c3_pattern_input_keys_witness :
    inputHandleKeyEvent envOk ({} : AppState) evF =
      (Except.ok true,
        { ({} : AppState) with
          grep := { ({} : AppState).grep with pattern := ({} : AppState).grep.pattern.push 'f' }
          dirty := true }) ∧
    inputHandleKeyEvent envOk ({ grep := { pattern := "fo" } } : AppState) evBackspace =
      (Except.ok true,
        { ({ grep := { pattern := "fo" } } : AppState) with
          grep := { ({ grep := { pattern := "fo" } } : AppState).grep with
            pattern := (({ grep := { pattern := "fo" } } : AppState)).grep.pattern.dropRight 1 }
          dirty := true }) ∧
    inputHandleKeyEvent envOk ({} : AppState) evEnter =
      (Except.ok false,
        { ({} : AppState) with search_result := {}, dirty := true, grep_count := 1 }) ∧
    appInput.dispatch_key envOk evEnter =
      (Except.ok (),
        { appInput with
          widgets := appInput.widgets.dropLast
          state := { appInput.state with
            search_result := {}
            dirty := true
            grep_count := appInput.state.grep_count + 1 } }) :=
  ⟨c3_pattern_input_keys.1 envOk {} evF 'f' rfl rfl,
   c3_pattern_input_keys.2.1 envOk { grep := { pattern := "fo" } } evBackspace rfl,
   c3_pattern_input_keys.2.2.1 envOk {} evEnter {} rfl rfl,
   c3_pattern_input_keys.2.2.2 envOk appInput evEnter {} rfl rfl rfl rfl⟩

end Mamegrep
